import Mathlib

/-!
Verification of solana-balance-checker.

A shallow embedding of `main.go` (the two-call balance resolver, the stake
aggregator, the JSON-RPC transport and the address prompt) together with the
parts of the Go standard library its behaviour rests on:

* `strconv.ParseUint(s, 10, 64)` is embedded loop for loop;
* `encoding/json` decoding is embedded over JSON *values*: a JSON text is
  represented by the value it denotes, so the scanner (white space, escapes)
  is not part of the model, while everything `Unmarshal` does with a value
  is: field selection by exact or case-folded name, later members overriding
  earlier ones, `null` leaving a field untouched, type mismatches failing;
* `float64` is embedded as IEEE-754 binary64 with round-to-nearest-even;
* Go strings are Lean strings (valid UTF-8 text); `len` is the length of the
  UTF-8 encoding.
-/

namespace SolanaBalance

/-! ## JSON values -/

/-- A JSON value.  A number literal is kept as sign, decimal digits and
decimal exponent (`-12.5e3` is `num true 125 2`), so that `-0` and numbers
outside the `float64` range stay representable. -/
inductive Json where
  | null : Json
  | bool (b : Bool) : Json
  | num (neg : Bool) (mant : Nat) (exp10 : Int) : Json
  | str (s : String) : Json
  | arr (elems : List Json) : Json
  | obj (members : List (String × Json)) : Json

/-- The type `json.RawMessage`: `none` is the nil message (no bytes), `some v`
a message holding the text of the value `v`. -/
abbrev RawMessage := Option Json

/-- A response body as read by `io.ReadAll`: either a text that is not
well-formed JSON, or the text of a JSON value. -/
inductive Body where
  | malformed (text : String) : Body
  | json (value : Json) : Body

/-! ## strconv.ParseUint -/

/-- The two errors of package `strconv`: `ErrSyntax` and `ErrRange`. -/
inductive NumError where
  | invalid : NumError
  | outOfRange : NumError
  deriving DecidableEq, Repr

def maxUint64 : Nat := 2 ^ 64 - 1

/-- In `ParseUint`, for base 10: "the smallest number such that
cutoff*base > maxUint64", `maxUint64/10 + 1`. -/
def cutoff10 : Nat := maxUint64 / 10 + 1

/-- The helper `lower` of `strconv`: `c | ('x' - 'X')`. -/
def lower (c : Nat) : Nat := c ||| 0x20

/-- The digit loop of `strconv.ParseUint` for `base = 10`, `bitSize = 64`
(so `base0` is false and `maxVal = maxUint64`), with `n` the value
accumulated so far.  The loop of the source ranges over the bytes of the
string; here it ranges over its characters, a character above U+007F
standing for its first byte, which is `0x80` or more and reaches the
`default` case. -/
def parseUintLoop : List Char → Nat → Except NumError Nat
  | [], n => .ok n
  | c :: cs, n =>
    let b := c.toNat
    if 48 ≤ b ∧ b ≤ 57 then
      -- case '0' <= c && c <= '9': d = c - '0'
      let d := b - 48
      if d ≥ 10 then .error .invalid
      else if n ≥ cutoff10 then .error .outOfRange
      else
        let n10 := (n * 10) % 2 ^ 64
        let n1 := (n10 + d) % 2 ^ 64
        if n1 < n10 ∨ n1 > maxUint64 then .error .outOfRange
        else parseUintLoop cs n1
    else if b < 128 ∧ 97 ≤ lower b ∧ lower b ≤ 122 then
      -- case 'a' <= lower(c) && lower(c) <= 'z': d = lower(c) - 'a' + 10
      let d := lower b - 97 + 10
      if d ≥ 10 then .error .invalid
      else if n ≥ cutoff10 then .error .outOfRange
      else
        let n10 := (n * 10) % 2 ^ 64
        let n1 := (n10 + d) % 2 ^ 64
        if n1 < n10 ∨ n1 > maxUint64 then .error .outOfRange
        else parseUintLoop cs n1
    else .error .invalid

/-- The call `strconv.ParseUint(s, 10, 64)`. -/
def ParseUint (s : String) : Except NumError Nat :=
  if s = "" then .error .invalid else parseUintLoop s.data 0

/-! ## Errors -/

/-- The errors `main.go` builds with `fmt.Errorf`, one constructor for each
message; the wrapped cause is kept where a claim is about it. -/
inductive Err where
  /-- "JSON marshaling error" -/
  | marshaling : Err
  /-- "request creation error" -/
  | requestCreation : Err
  /-- "HTTP request error" -/
  | httpRequest : Err
  /-- "response reading error" -/
  | responseReading : Err
  /-- "unexpected HTTP status code: %d, response: %s" -/
  | httpStatus (code : Int) (body : Body) : Err
  /-- "JSON parsing error: %w, response: %s" -/
  | jsonParsing (body : Body) : Err
  /-- "error parsing account info" -/
  | accountInfoParsing : Err
  /-- "error parsing stake accounts" -/
  | stakeAccountsParsing : Err
  /-- "error parsing stake value", wrapping the `*strconv.NumError` of
  `ParseUint` for the string `num` -/
  | stakeValue (num : String) (cause : NumError) : Err

/-! ## float64 -/

/-- A `float64` value.  `fin neg mant exp` is `(-1)^neg * mant * 2^exp` in
canonical form: `2^52 ≤ mant < 2^53` and `-1074 ≤ exp ≤ 971` for a normal
number, `mant < 2^52` and `exp = -1074` for a subnormal number or zero. -/
inductive F64 where
  | nan : F64
  | inf (neg : Bool) : F64
  | fin (neg : Bool) (mant : Nat) (exp : Int) : F64
  deriving DecidableEq, Repr

namespace F64

/-- Round-to-nearest-even of the quotient `n / d` (`d > 0`) to an integer. -/
def roundHalfEven (n d : Nat) : Nat :=
  let q := n / d
  let r := n % d
  if 2 * r < d then q
  else if d < 2 * r then q + 1
  else if q % 2 = 0 then q else q + 1

/-- The position of the leading bit of `n`, `⌊log2 n⌋` (and `0` for `n = 0`),
by repeated halving: `acc` counts the halvings and `fuel` bounds them. -/
def log2Fuel : Nat → Nat → Nat → Nat
  | 0, _, acc => acc
  | fuel + 1, n, acc => if 2 ≤ n then log2Fuel fuel (n / 2) (acc + 1) else acc

/-- The position of the leading bit of `n`. -/
def log2 (n : Nat) : Nat := log2Fuel n n 0

/-- The `float64` nearest to `(-1)^neg * num / den` (`den > 0`), ties to
even; `inf` when the rounded value exceeds the largest finite `float64`. -/
def round (neg : Bool) (num den : Nat) : F64 :=
  if num = 0 then fin neg 0 (-1074)
  else
    -- `lead = ⌊log2 (num / den)⌋`: it is `k` or `k - 1`
    let k : Int := (log2 num : Int) - (log2 den : Int)
    let atLeast : Bool :=
      if 0 ≤ k then decide (den * 2 ^ k.toNat ≤ num) else decide (den ≤ num * 2 ^ (-k).toNat)
    let lead : Int := if atLeast then k else k - 1
    let e : Int := max (lead - 52) (-1074)
    -- `num / den = (n / d) * 2^e`
    let n : Nat := if 0 ≤ e then num else num * 2 ^ (-e).toNat
    let d : Nat := if 0 ≤ e then den * 2 ^ e.toNat else den
    let m := roundHalfEven n d
    let m1 : Nat := if m = 2 ^ 53 then 2 ^ 52 else m
    let e1 : Int := if m = 2 ^ 53 then e + 1 else e
    if 971 < e1 then inf neg else fin neg m1 e1

/-- The conversion `float64(n)` of an unsigned integer. -/
def ofUInt64 (n : Nat) : F64 := round false n 1

/-- The constant `1e9` as a `float64`. -/
def e9 : F64 := round false 1000000000 1

/-- The division `x / y` of two `float64` values. -/
def div : F64 → F64 → F64
  | nan, _ => nan
  | _, nan => nan
  | inf _, inf _ => nan
  | inf s, fin t _ _ => inf (xor s t)
  | fin s _ _, inf t => fin (xor s t) 0 (-1074)
  | fin s m e, fin t m2 e2 =>
    if m2 = 0 then (if m = 0 then nan else inf (xor s t))
    else if e2 ≤ e then round (xor s t) (m * 2 ^ (e - e2).toNat) m2
    else round (xor s t) m (m2 * 2 ^ (e2 - e).toNat)

/-- The call `strconv.ParseFloat(lit, 64)` on the JSON number literal with
sign `neg`, digits `mant` and decimal exponent `exp10`: the nearest
`float64`, or `none` for the range error of a literal that rounds to an
infinity. -/
def parse (neg : Bool) (mant : Nat) (exp10 : Int) : Option F64 :=
  let r := if 0 ≤ exp10 then round neg (mant * 10 ^ exp10.toNat) 1
           else round neg mant (10 ^ (-exp10).toNat)
  match r with
  | fin s m e => some (fin s m e)
  | _ => none

/-- The zero value of a `float64` variable, `+0`. -/
def zero : F64 := fin false 0 (-1074)

end F64

/-! ## encoding/json: decoding a value into a Go variable -/

/-- Case folding of one character of a member name.  The fields of `main.go`
are tagged with lower-case ASCII letters only, and the characters that
fold to an ASCII letter are its two cases, U+017F (long s) for `s` and
U+212A (Kelvin sign) for `k`. -/
def foldChar (c : Char) : Char :=
  if c = Char.ofNat 0x17F then 'S'
  else if c = Char.ofNat 0x212A then 'K'
  else c.toUpper

/-- Case folding of a member name. -/
def foldName (s : String) : String := String.mk (s.data.map foldChar)

/-- Whether the member name `key` selects the struct field tagged `name`:
an exact match, or else a match of the folded names. -/
def selects (name key : String) : Bool :=
  key == name || foldName key == foldName name

/-- Decoding a value into a `string` variable holding `cur`; `none` is an
`UnmarshalTypeError`. -/
def decodeString (cur : String) : Json → Option String
  | .str s => some s
  | .null => some cur
  | _ => none

/-- Decoding a value into a `float64` variable holding `cur`; `none` is an
`UnmarshalTypeError` (a value that is no number, or a number out of range). -/
def decodeFloat64 (cur : F64) : Json → Option F64
  | .num neg mant exp10 => F64.parse neg mant exp10
  | .null => some cur
  | _ => none

/-- Decoding the members of an object, in order, into a struct variable
holding `cur`; `field cur key v` decodes the member `key: v`. -/
def decodeMembers {α : Type} (field : α → String → Json → Option α) :
    α → List (String × Json) → Option α
  | cur, [] => some cur
  | cur, (key, v) :: rest =>
    match field cur key v with
    | none => none
    | some next => decodeMembers field next rest

/-- Decoding a value into a struct variable holding `cur`: an object is
decoded member by member, `null` changes nothing, any other value is an
`UnmarshalTypeError`. -/
def decodeStruct {α : Type} (field : α → String → Json → Option α) (cur : α) :
    Json → Option α
  | .obj members => decodeMembers field cur members
  | .null => some cur
  | _ => none

/-! ### The response envelope of `sendRPCRequest` -/

/-- The field `Result json.RawMessage` tagged `result`: a `RawMessage` takes
the text of any value, `null` included. -/
def responseField (cur : RawMessage) (key : String) (v : Json) : Option RawMessage :=
  if selects "result" key then some (some v) else some cur

/-- The call `json.Unmarshal(body, &response)` of `sendRPCRequest`, giving
`response.Result`; `none` when `Unmarshal` returns an error. -/
def unmarshalResponse : Body → Option RawMessage
  | .malformed _ => none
  | .json v => decodeStruct responseField none v

/-! ### The variable `accountData` of `getSolanaAccountInfo` -/

/-- The variable `accountData`, reduced to its only leaf `Value.Lamports`. -/
structure AccountData where
  Lamports : F64
  deriving DecidableEq, Repr

/-- The field `Lamports float64` tagged `lamports` of `accountData.Value`. -/
def valueField (cur : AccountData) (key : String) (v : Json) : Option AccountData :=
  if selects "lamports" key then (decodeFloat64 cur.Lamports v).map AccountData.mk
  else some cur

/-- The field `Value` tagged `value` of `accountData`. -/
def accountDataField (cur : AccountData) (key : String) (v : Json) : Option AccountData :=
  if selects "value" key then decodeStruct valueField cur v else some cur

/-- The call `json.Unmarshal(accountInfo, &accountData)`; `none` when it
returns an error (a nil message is a syntax error). -/
def unmarshalAccountData : RawMessage → Option AccountData
  | none => none
  | some v => decodeStruct accountDataField ⟨F64.zero⟩ v

/-! ### The variable `stakeAccounts` of `calculateTotalStake` -/

/-- An element of the slice `stakeAccounts`, reduced to its two leaves:
`parsedType` is `Account.Data.Parsed.Type` and `delegationStake` is
`Account.Data.Parsed.Info.Stake.Delegation.Stake`. -/
structure StakeAccount where
  parsedType : String
  delegationStake : String
  deriving DecidableEq, Repr

/-- The field `Stake string` tagged `stake` of `Delegation`. -/
def delegationField (cur : String) (key : String) (v : Json) : Option String :=
  if selects "stake" key then decodeString cur v else some cur

/-- The field `Delegation` tagged `delegation` of `Info.Stake`. -/
def stakeField (cur : String) (key : String) (v : Json) : Option String :=
  if selects "delegation" key then decodeStruct delegationField cur v else some cur

/-- The field `Stake` tagged `stake` of `Info`. -/
def infoField (cur : String) (key : String) (v : Json) : Option String :=
  if selects "stake" key then decodeStruct stakeField cur v else some cur

/-- The fields `Type string` tagged `type` and `Info` tagged `info` of
`Parsed`. -/
def parsedField (cur : StakeAccount) (key : String) (v : Json) : Option StakeAccount :=
  if selects "type" key then
    (decodeString cur.parsedType v).map (fun t => { cur with parsedType := t })
  else if selects "info" key then
    (decodeStruct infoField cur.delegationStake v).map (fun t => { cur with delegationStake := t })
  else some cur

/-- The field `Parsed` tagged `parsed` of `Data`. -/
def dataField (cur : StakeAccount) (key : String) (v : Json) : Option StakeAccount :=
  if selects "parsed" key then decodeStruct parsedField cur v else some cur

/-- The field `Data` tagged `data` of `Account`. -/
def accountField (cur : StakeAccount) (key : String) (v : Json) : Option StakeAccount :=
  if selects "data" key then decodeStruct dataField cur v else some cur

/-- The field `Account` tagged `account` of a slice element. -/
def elementField (cur : StakeAccount) (key : String) (v : Json) : Option StakeAccount :=
  if selects "account" key then decodeStruct accountField cur v else some cur

/-- Decoding the elements of an array into the slice, each into a fresh
zero-valued element. -/
def decodeElements : List Json → Option (List StakeAccount)
  | [] => some []
  | v :: rest =>
    match decodeStruct elementField ⟨"", ""⟩ v with
    | none => none
    | some a =>
      match decodeElements rest with
      | none => none
      | some as => some (a :: as)

/-- The call `json.Unmarshal(rawStakeAccounts, &stakeAccounts)`; `none` when
it returns an error.  `null` sets the slice to nil. -/
def unmarshalStakeAccounts : RawMessage → Option (List StakeAccount)
  | none => none
  | some (.arr elems) => decodeElements elems
  | some .null => some []
  | some _ => none

/-! ## main.go: calculateTotalStake -/

/-- The loop `for _, account := range stakeAccounts` of
`calculateTotalStake`, with `totalStake` the `uint64` accumulated so far. -/
def totalStakeLoop : List StakeAccount → Nat → Except Err Nat
  | [], totalStake => .ok totalStake
  | account :: rest, totalStake =>
    if account.parsedType = "delegated" then
      match ParseUint account.delegationStake with
      | .error e => .error (.stakeValue account.delegationStake e)
      | .ok stake => totalStakeLoop rest ((totalStake + stake) % 2 ^ 64)
    else totalStakeLoop rest totalStake

/-- The total in base units that `calculateTotalStake` accumulates: the
function up to, and without, its final conversion. -/
def totalStakeBaseUnits (rawStakeAccounts : RawMessage) : Except Err Nat :=
  match unmarshalStakeAccounts rawStakeAccounts with
  | none => .error .stakeAccountsParsing
  | some stakeAccounts => totalStakeLoop stakeAccounts 0

/-- The function `calculateTotalStake`. -/
def calculateTotalStake (rawStakeAccounts : RawMessage) : Except Err F64 :=
  match totalStakeBaseUnits rawStakeAccounts with
  | .error e => .error e
  | .ok totalStake => .ok (F64.div (F64.ofUInt64 totalStake) F64.e9)

/-! ## main.go: sendRPCRequest -/

/-- The struct `RPCRequest`; `Params` holds the values as `json.Marshal`
writes them (the keys of a Go map in sorted order). -/
structure RPCRequest where
  JsonRPC : String
  ID : Int
  Method : String
  Params : List Json

/-- What becomes of one call of `sendRPCRequest` outside the program:
`http.NewRequestWithContext` fails, or `client.Do` fails (no connection,
deadline exceeded, cancellation), or `io.ReadAll` fails, or a response
arrives with a status code and a body. -/
inductive HttpOutcome where
  | creationFailed : HttpOutcome
  | doFailed : HttpOutcome
  | readFailed : HttpOutcome
  | response (status : Int) (body : Body) : HttpOutcome

/-- The state outside `getSolanaAccountInfo`: the variable `solanaRPCURL`,
the network (what a POST of a request to a URL leads to) and the requests
handed to `client.Do` so far. -/
structure Net where
  solanaRPCURL : String
  respond : String → RPCRequest → HttpOutcome
  issued : List RPCRequest

/-- The function `getSolanaRPCURL`. -/
def getSolanaRPCURL (net : Net) : String := net.solanaRPCURL

/-- The function `setSolanaRPCURL`. -/
def setSolanaRPCURL (net : Net) (url : String) : Net := { net with solanaRPCURL := url }

/-- The function `sendRPCRequest`.  `json.Marshal` cannot fail on a request
whose parameters are JSON values, so the marshaling error does not occur. -/
def sendRPCRequest (net : Net) (method : String) (params : List Json) :
    Except Err RawMessage × Net :=
  let request : RPCRequest := { JsonRPC := "2.0", ID := 1, Method := method, Params := params }
  match net.respond (getSolanaRPCURL net) request with
  | .creationFailed => (.error .requestCreation, net)
  | .doFailed => (.error .httpRequest, { net with issued := net.issued ++ [request] })
  | .readFailed => (.error .responseReading, { net with issued := net.issued ++ [request] })
  | .response status body =>
    let net1 : Net := { net with issued := net.issued ++ [request] }
    if status ≠ 200 then (.error (.httpStatus status body), net1)
    else
      match unmarshalResponse body with
      | none => (.error (.jsonParsing body), net1)
      | some result => (.ok result, net1)

/-! ## main.go: getSolanaAccountInfo -/

/-- The struct `AccountInfo`. -/
structure AccountInfo where
  Balance : F64
  StakedBalance : F64
  deriving DecidableEq, Repr

/-- The parameters of the `getAccountInfo` request for `address`. -/
def accountInfoParams (address : String) : List Json :=
  [.str address, .obj [("encoding", .str "jsonParsed")]]

/-- The parameters of the `getProgramAccounts` request for `address`. -/
def programAccountsParams (address : String) : List Json :=
  [.str "Stake11111111111111111111111111111111111111",
   .obj [("encoding", .str "jsonParsed"),
         ("filters", .arr [.obj [("memcmp",
            .obj [("bytes", .str address), ("offset", .num false 12 0)])]])]]

/-- The function `getSolanaAccountInfo`. -/
def getSolanaAccountInfo (net : Net) (address : String) : Except Err AccountInfo × Net :=
  match sendRPCRequest net "getAccountInfo" (accountInfoParams address) with
  | (.error e, net1) => (.error e, net1)
  | (.ok accountInfo, net1) =>
    match unmarshalAccountData accountInfo with
    | none => (.error .accountInfoParsing, net1)
    | some accountData =>
      match sendRPCRequest net1 "getProgramAccounts" (programAccountsParams address) with
      | (.error e, net2) => (.error e, net2)
      | (.ok stakeAccounts, net2) =>
        let balance := F64.div accountData.Lamports F64.e9
        match calculateTotalStake stakeAccounts with
        | .error e => (.error e, net2)
        | .ok stakedBalance => (.ok { Balance := balance, StakedBalance := stakedBalance }, net2)

/-! ## main.go: getAddressFromUser -/

/-- The predicate `unicode.IsSpace`. -/
def isSpace (c : Char) : Bool :=
  let r := c.toNat
  (0x09 ≤ r ∧ r ≤ 0x0D) ∨ r = 0x20 ∨ r = 0x85 ∨ r = 0xA0 ∨ r = 0x1680 ∨
  (0x2000 ≤ r ∧ r ≤ 0x200A) ∨ r = 0x2028 ∨ r = 0x2029 ∨ r = 0x202F ∨ r = 0x205F ∨ r = 0x3000

/-- The function `strings.TrimSpace`. -/
def TrimSpace (s : String) : String :=
  String.mk ((s.data.dropWhile isSpace).reverse.dropWhile isSpace).reverse

/-- The built-in `len` on a string: the number of bytes of its UTF-8
encoding. -/
def len (s : String) : Nat := s.utf8ByteSize

/-- The test `len(address) == 44 || len(address) == 43` that
`getAddressFromUser` applies to the trimmed line. -/
def accepts (address : String) : Bool := len address == 44 || len address == 43

def promptText : String := "Please enter a Solana wallet address: "

def invalidText : String := "Invalid address length. Please try again.\n"

/-- The function `getAddressFromUser` on the successive results `reads` of
`reader.ReadString('\n')`, with `out` what was printed so far.  After the
last of them the input is at its end, every further read is empty and
rejected, and the loop never returns: the result is then `none`. -/
def getAddressFromUser : List String → List String → Option String × List String
  | [], out => (none, out ++ [promptText])
  | line :: rest, out =>
    let address := TrimSpace line
    if accepts address then (some address, out ++ [promptText])
    else getAddressFromUser rest (out ++ [promptText, invalidText])

/-! ## Notions of the specification -/

/-- An ASCII decimal digit. -/
def isDigit (c : Char) : Bool := decide (48 ≤ c.toNat ∧ c.toNat ≤ 57)

/-- The number that the decimal digits `cs` denote when appended to the
number `n`. -/
def digitsValue (cs : List Char) (n : Nat) : Nat :=
  cs.foldl (fun a c => a * 10 + (c.toNat - 48)) n

/-- A non-empty sequence of ASCII decimal digits. -/
def isDecimal (s : String) : Bool := s.data ≠ [] && s.data.all isDigit

/-- The number that a sequence of decimal digits denotes. -/
def decimalValue (s : String) : Nat := digitsValue s.data 0

/-- A stake amount that fits an unsigned 64-bit integer: a non-empty sequence
of ASCII decimal digits denoting at most `2^64 - 1`. -/
def validAmount (s : String) : Bool := isDecimal s && decide (decimalValue s ≤ 2 ^ 64 - 1)

/-- The sum, over the records whose type is "delegated", of the amounts
their stake strings denote: a sum of natural numbers, without a bound. -/
def delegatedSum : List StakeAccount → Nat
  | [] => 0
  | a :: rest =>
    (if a.parsedType = "delegated" then decimalValue a.delegationStake else 0) + delegatedSum rest

/-! ## Concrete payloads -/

/-- A record of a `getProgramAccounts` result that decodes to `a`. -/
def recordJson (a : StakeAccount) : Json :=
  .obj [("account", .obj [("data", .obj [("parsed", .obj
          [("info", .obj [("stake", .obj [("delegation",
              .obj [("stake", .str a.delegationStake)])])]),
           ("type", .str a.parsedType)]),
         ("program", .str "stake")])]),
        ("pubkey", .str "TESTPUBKEY")]

/-- A `getProgramAccounts` result that decodes to `accounts`. -/
def payloadOf (accounts : List StakeAccount) : RawMessage :=
  some (.arr (accounts.map recordJson))

/-- A record of type "initialized", which has no `stake` member. -/
def initializedRecord : Json :=
  .obj [("account", .obj [("data", .obj [("parsed", .obj
          [("info", .obj [("meta", .obj [("rentExemptReserve", .str "2282880")])]),
           ("type", .str "initialized")]),
         ("program", .str "stake")])]),
        ("pubkey", .str "TESTPUBKEY")]

/-- Scenario 4 of the specification: a delegated record with stake
"300000000" and an initialized record. -/
def scenario4Payload : RawMessage :=
  some (.arr [recordJson ⟨"delegated", "300000000"⟩, initializedRecord])

/-- Two delegated records whose amounts sum to `2^64 + 1`, around an
initialized record. -/
def overflowPayload : RawMessage :=
  some (.arr [recordJson ⟨"delegated", "18446744073709551615"⟩, initializedRecord,
    recordJson ⟨"delegated", "2"⟩])

/-- Two delegated records with the stakes "18446744073709551615" and "1". -/
def wrapPayload : RawMessage :=
  some (.arr [recordJson ⟨"delegated", "18446744073709551615"⟩,
    recordJson ⟨"delegated", "1"⟩])

/-- A delegated record with a malformed stake between two valid ones. -/
def malformedPayload : RawMessage :=
  some (.arr [recordJson ⟨"delegated", "5"⟩, recordJson ⟨"delegated", "12a"⟩,
    recordJson ⟨"delegated", "7"⟩])

/-- A record of type "delegated" that has no `stake` member under
`delegation`. -/
def delegatedWithoutStake : Json :=
  .obj [("account", .obj [("data", .obj [("parsed", .obj
          [("info", .obj [("stake", .obj [("delegation",
              .obj [("voter", .str "Vote111111111111111111111111111111111111111")])])]),
           ("type", .str "delegated")]),
         ("program", .str "stake")])]),
        ("pubkey", .str "TESTPUBKEY")]

/-! ## Concrete networks -/

/-- The request that `getSolanaAccountInfo` builds first. -/
def accountInfoRequest (address : String) : RPCRequest :=
  { JsonRPC := "2.0", ID := 1, Method := "getAccountInfo",
    Params := [.str address, .obj [("encoding", .str "jsonParsed")]] }

/-- The request that `getSolanaAccountInfo` builds second. -/
def programAccountsRequest (address : String) : RPCRequest :=
  { JsonRPC := "2.0", ID := 1, Method := "getProgramAccounts",
    Params := [.str "Stake11111111111111111111111111111111111111",
      .obj [("encoding", .str "jsonParsed"),
            ("filters", .arr [.obj [("memcmp",
              .obj [("bytes", .str address), ("offset", .num false 12 0)])]])]] }

/-- A network at `url` that answers the two methods with the given outcomes
and any other request with an empty body, as the handler of
`TestGetSolanaAccountInfo` does; at another URL nothing answers. -/
def serverAt (url : String) (first second : HttpOutcome) : String → RPCRequest → HttpOutcome :=
  fun target request =>
    if target = url then
      if request.Method = "getAccountInfo" then first
      else if request.Method = "getProgramAccounts" then second
      else .response 200 (.malformed "")
    else .doFailed

/-- The state after `setSolanaRPCURL(server.URL)` for a server with the
given outcomes. -/
def netWith (first second : HttpOutcome) : Net :=
  setSolanaRPCURL
    { solanaRPCURL := "https://api.mainnet-beta.solana.com",
      respond := serverAt "http://127.0.0.1:40000" first second,
      issued := [] }
    "http://127.0.0.1:40000"

/-- An envelope around `result`. -/
def envelope (result : Json) : Body :=
  .json (.obj [("jsonrpc", .str "2.0"), ("result", result), ("id", .num false 1 0)])

/-- The `getAccountInfo` result of `TestGetSolanaAccountInfo`, with
`lamports` in place of the balance. -/
def accountResult (lamports : Json) : Json :=
  .obj [("context", .obj [("slot", .num false 1234 0)]),
        ("value", .obj [("data", .arr [.str "", .str "base64"]),
                        ("executable", .bool false),
                        ("lamports", lamports),
                        ("owner", .str "11111111111111111111111111111111"),
                        ("rentEpoch", .num false 0 0)])]

/-- The `getProgramAccounts` record of `TestGetSolanaAccountInfo`. -/
def testRecord : Json :=
  .obj [("account", .obj
          [("data", .obj
            [("parsed", .obj
              [("info", .obj
                [("meta", .obj
                  [("authorized", .obj
                    [("staker", .str "Stake11111111111111111111111111111111111111"),
                     ("withdrawer", .str "Stake11111111111111111111111111111111111111")]),
                   ("lockup", .obj
                    [("custodian", .str "11111111111111111111111111111111"),
                     ("epoch", .num false 0 0), ("unixTimestamp", .num false 0 0)]),
                   ("rentExemptReserve", .str "2282880")]),
                 ("stake", .obj
                  [("creditsObserved", .num false 1234 0),
                   ("delegation", .obj
                    [("activationEpoch", .str "123"),
                     ("deactivationEpoch", .str "18446744073709551615"),
                     ("stake", .str "500000000"),
                     ("voter", .str "Vote111111111111111111111111111111111111111")])])]),
               ("type", .str "delegated")]),
             ("program", .str "stake"), ("space", .num false 200 0)]),
           ("executable", .bool false), ("lamports", .num false 500000000 0),
           ("owner", .str "Stake11111111111111111111111111111111111111"),
           ("rentEpoch", .num false 0 0)]),
        ("pubkey", .str "TESTPUBKEY")]

/-- The network of `TestGetSolanaAccountInfo`. -/
def testNet : Net :=
  netWith (.response 200 (envelope (accountResult (.num false 1000000000 0))))
    (.response 200 (envelope (.arr [testRecord])))

/-- A network whose stake accounts are the two delegated records with the
stakes "18446744073709551615" and "1". -/
def wrapNet : Net :=
  netWith (.response 200 (envelope (accountResult (.num false 1000000000 0))))
    (.response 200 (envelope (.arr [recordJson ⟨"delegated", "18446744073709551615"⟩,
      recordJson ⟨"delegated", "1"⟩])))

/-- The value `1.0`. -/
def F64.one : F64 := .fin false (2 ^ 52) (-52)

/-- The value `0.5`. -/
def F64.half : F64 := .fin false (2 ^ 52) (-53)

/-! ## The resolver as a function of the two outcomes -/

/-- What `sendRPCRequest` returns for an outcome of its request. -/
def replyOf : HttpOutcome → Except Err RawMessage
  | .creationFailed => .error .requestCreation
  | .doFailed => .error .httpRequest
  | .readFailed => .error .responseReading
  | .response status body =>
    if status ≠ 200 then .error (.httpStatus status body)
    else
      match unmarshalResponse body with
      | none => .error (.jsonParsing body)
      | some result => .ok result

/-- The requests handed to `client.Do` for an outcome of `request`. -/
def issuedFor : HttpOutcome → RPCRequest → List RPCRequest
  | .creationFailed, _ => []
  | _, request => [request]

/-- The result of `getSolanaAccountInfo` from the replies to its two
requests. -/
def resultOf (first second : Except Err RawMessage) : Except Err AccountInfo :=
  match first with
  | .error e => .error e
  | .ok accountInfo =>
    match unmarshalAccountData accountInfo with
    | none => .error .accountInfoParsing
    | some accountData =>
      match second with
      | .error e => .error e
      | .ok stakeAccounts =>
        match calculateTotalStake stakeAccounts with
        | .error e => .error e
        | .ok stakedBalance =>
          .ok { Balance := F64.div accountData.Lamports F64.e9, StakedBalance := stakedBalance }

/-- Whether the second request is reached: the first reply is a payload that
decodes. -/
def reachesSecond (first : Except Err RawMessage) : Bool :=
  match first with
  | .error _ => false
  | .ok accountInfo => (unmarshalAccountData accountInfo).isSome

/-- A value that is neither a number nor `null`: a string, a boolean, an
array or an object. -/
def notNumberOrNull : Json → Bool
  | .str _ => true
  | .bool _ => true
  | .arr _ => true
  | .obj _ => true
  | _ => false

/-- An envelope that carries an `error` member next to `result`. -/
def envelopeWithError (result : Json) : Body :=
  .json (.obj [("jsonrpc", .str "2.0"),
    ("error", .obj [("code", .num true 32602 0), ("message", .str "Invalid params")]),
    ("result", result), ("id", .num false 1 0)])

/-- A network whose two responses carry an `error` member next to the
results of `TestGetSolanaAccountInfo`. -/
def errorMemberNet : Net :=
  netWith (.response 200 (envelopeWithError (accountResult (.num false 1000000000 0))))
    (.response 200 (envelopeWithError (.arr [testRecord])))

/-- The envelope of a JSON-RPC error response: an `error` member and no
`result` member. -/
def errorEnvelope : List (String × Json) :=
  [("jsonrpc", .str "2.0"),
   ("error", .obj [("code", .num true 32602 0), ("message", .str "Invalid params")]),
   ("id", .num false 1 0)]

/-- A network whose second response is a JSON-RPC error response. -/
def errorResponseNet : Net :=
  netWith (.response 200 (envelope (accountResult (.num false 1000000000 0))))
    (.response 200 (.json (.obj errorEnvelope)))

/-- A network whose `getAccountInfo` result has the value `null`, as for an
address without an account, and that has no stake accounts. -/
def nullValueNet : Net :=
  netWith
    (.response 200 (envelope (.obj [("context", .obj [("slot", .num false 1234 0)]),
      ("value", .null)])))
    (.response 200 (envelope (.arr [])))

/-- A network whose `getAccountInfo` result carries the string "1000000000"
as `lamports`. -/
def stringLamportsNet : Net :=
  netWith (.response 200 (envelope (accountResult (.str "1000000000"))))
    (.response 200 (envelope (.arr [])))

/-- A network that answers the first request with status 500. -/
def firstFailsNet : Net :=
  netWith (.response 500 (.malformed "Internal Server Error"))
    (.response 200 (envelope (.arr [testRecord])))

/-- A network that answers the second request with status 500. -/
def secondFailsNet : Net :=
  netWith (.response 200 (envelope (accountResult (.num false 1000000000 0))))
    (.response 500 (.malformed "Internal Server Error"))

/-! ## Lemmas -/

theorem digitsValue_ge (cs : List Char) (n : Nat) : n ≤ digitsValue cs n := by
  induction cs generalizing n with
  | nil => simp [digitsValue]
  | cons c cs ih =>
    have h := ih (n * 10 + (c.toNat - 48))
    simp only [digitsValue, List.foldl_cons] at h ⊢
    omega

theorem parseUintLoop_ok (cs : List Char) (n : Nat) (hn : n < 2 ^ 64)
    (hd : cs.all isDigit = true) (hv : digitsValue cs n < 2 ^ 64) :
    parseUintLoop cs n = .ok (digitsValue cs n) := by
  induction cs generalizing n with
  | nil => simp [parseUintLoop, digitsValue]
  | cons c cs ih =>
    simp only [List.all_cons, Bool.and_eq_true, isDigit, decide_eq_true_eq] at hd
    have hge := digitsValue_ge cs (n * 10 + (c.toNat - 48))
    have hv' : digitsValue cs (n * 10 + (c.toNat - 48)) < 2 ^ 64 := by
      simpa [digitsValue] using hv
    have hlt : n * 10 + (c.toNat - 48) < 2 ^ 64 := lt_of_le_of_lt hge hv'
    have h10 : n * 10 % 2 ^ 64 = n * 10 := Nat.mod_eq_of_lt (by omega)
    have h1 : (n * 10 + (c.toNat - 48)) % 2 ^ 64 = n * 10 + (c.toNat - 48) := Nat.mod_eq_of_lt hlt
    have hcut : ¬ n ≥ cutoff10 := by
      simp only [cutoff10, maxUint64]; omega
    have hrec := ih (n * 10 + (c.toNat - 48)) hlt hd.2 hv'
    rw [parseUintLoop]
    simp only [hd.1, and_self, if_true, h10, h1, hcut, if_false]
    rw [if_neg (by omega), if_neg (by simp only [maxUint64]; omega), hrec]
    simp [digitsValue]

theorem parseUintLoop_ok_inv (cs : List Char) (n v : Nat) (hn : n < 2 ^ 64)
    (h : parseUintLoop cs n = .ok v) :
    cs.all isDigit = true ∧ digitsValue cs n < 2 ^ 64 ∧ v = digitsValue cs n := by
  induction cs generalizing n with
  | nil =>
    simp only [parseUintLoop, Except.ok.injEq] at h
    subst h
    exact ⟨rfl, hn, rfl⟩
  | cons c cs ih =>
    rw [parseUintLoop] at h
    by_cases hc : 48 ≤ c.toNat ∧ c.toNat ≤ 57
    · simp only [hc, and_self, if_true] at h
      rw [if_neg (by omega)] at h
      by_cases hcut : n ≥ cutoff10
      · rw [if_pos hcut] at h
        cases h
      · rw [if_neg hcut] at h
        have hn10 : n * 10 < 2 ^ 64 := by
          simp only [cutoff10, maxUint64] at hcut; omega
        have h10 : n * 10 % 2 ^ 64 = n * 10 := Nat.mod_eq_of_lt hn10
        rw [h10] at h
        by_cases hov : (n * 10 + (c.toNat - 48)) % 2 ^ 64 < n * 10 ∨
            (n * 10 + (c.toNat - 48)) % 2 ^ 64 > maxUint64
        · rw [if_pos hov] at h
          cases h
        · rw [if_neg hov] at h
          have hlt : n * 10 + (c.toNat - 48) < 2 ^ 64 := by
            by_contra hcon
            apply hov; left
            have : (n * 10 + (c.toNat - 48)) % 2 ^ 64 = n * 10 + (c.toNat - 48) - 2 ^ 64 := by
              rw [Nat.mod_eq_sub_mod (by omega)]
              exact Nat.mod_eq_of_lt (by omega)
            omega
          rw [Nat.mod_eq_of_lt hlt] at h
          obtain ⟨a, b, c'⟩ := ih _ hlt h
          refine ⟨?_, ?_, ?_⟩
          · simp [isDigit, hc, a]
          · simpa [digitsValue] using b
          · simpa [digitsValue] using c'
    · rw [if_neg hc] at h
      by_cases hl : c.toNat < 128 ∧ 97 ≤ lower c.toNat ∧ lower c.toNat ≤ 122
      · rw [if_pos hl, if_pos (by omega)] at h
        cases h
      · rw [if_neg hl] at h
        cases h

theorem data_ne_nil_iff (s : String) : s.data ≠ [] ↔ s ≠ "" := by
  constructor
  · intro h hs
    apply h
    rw [hs]
  · intro h hs
    apply h
    cases s with
    | mk d =>
      simp only at hs
      subst hs
      rfl

theorem ParseUint_ok_iff (s : String) (v : Nat) :
    ParseUint s = .ok v ↔ isDecimal s = true ∧ decimalValue s < 2 ^ 64 ∧ v = decimalValue s := by
  unfold ParseUint
  by_cases hs : s = ""
  · subst hs
    simp only [if_true]
    constructor
    · intro h; cases h
    · intro h
      have := h.1
      simp [isDecimal] at this
  · rw [if_neg hs]
    constructor
    · intro h
      obtain ⟨a, b, c⟩ := parseUintLoop_ok_inv s.data 0 v (by norm_num) h
      refine ⟨?_, b, c⟩
      simp only [isDecimal, Bool.and_eq_true, decide_eq_true_eq]
      exact ⟨(data_ne_nil_iff s).2 hs, a⟩
    · rintro ⟨a, b, c⟩
      simp only [isDecimal, Bool.and_eq_true, decide_eq_true_eq] at a
      rw [c]
      exact parseUintLoop_ok s.data 0 (by norm_num) a.2 b

theorem ParseUint_validAmount (s : String) (h : validAmount s = true) :
    ParseUint s = .ok (decimalValue s) := by
  simp only [validAmount, Bool.and_eq_true, decide_eq_true_eq] at h
  exact (ParseUint_ok_iff s _).2 ⟨h.1, by omega, rfl⟩

theorem ParseUint_not_validAmount (s : String) (h : validAmount s = false) :
    ∃ c, ParseUint s = .error c := by
  cases hp : ParseUint s with
  | error c => exact ⟨c, rfl⟩
  | ok v =>
    obtain ⟨a, b, _⟩ := (ParseUint_ok_iff s v).1 hp
    have : validAmount s = true := by
      simp only [validAmount, Bool.and_eq_true, decide_eq_true_eq]
      exact ⟨a, by omega⟩
    rw [h] at this
    cases this

theorem totalStakeLoop_valid (accounts : List StakeAccount) (total : Nat) (ht : total < 2 ^ 64)
    (h : ∀ a ∈ accounts, a.parsedType = "delegated" → validAmount a.delegationStake = true) :
    totalStakeLoop accounts total = .ok ((total + delegatedSum accounts) % 2 ^ 64) := by
  induction accounts generalizing total with
  | nil => simp only [totalStakeLoop, delegatedSum, Nat.add_zero, Nat.mod_eq_of_lt ht]
  | cons a rest ih =>
    have hrest : ∀ b ∈ rest, b.parsedType = "delegated" → validAmount b.delegationStake = true :=
      fun b hb => h b (List.mem_cons_of_mem _ hb)
    rw [totalStakeLoop]
    by_cases hd : a.parsedType = "delegated"
    · rw [if_pos hd, ParseUint_validAmount _ (h a (List.mem_cons_self _ _) hd)]
      simp only
      rw [ih _ (Nat.mod_lt _ (by norm_num)) hrest]
      simp only [delegatedSum, if_pos hd]
      congr 1
      omega
    · rw [if_neg hd, ih _ ht hrest]
      simp only [delegatedSum, if_neg hd]
      congr 2
      omega

theorem totalStakeLoop_invalid (accounts : List StakeAccount) (total : Nat)
    (h : ∃ a ∈ accounts, a.parsedType = "delegated" ∧ validAmount a.delegationStake = false) :
    ∃ s c, totalStakeLoop accounts total = .error (.stakeValue s c) := by
  induction accounts generalizing total with
  | nil => obtain ⟨a, ha, _⟩ := h; cases ha
  | cons a rest ih =>
    rw [totalStakeLoop]
    by_cases hd : a.parsedType = "delegated"
    · rw [if_pos hd]
      cases hp : ParseUint a.delegationStake with
      | error c => exact ⟨_, c, rfl⟩
      | ok v =>
        simp only
        apply ih
        obtain ⟨b, hb, hbd, hbv⟩ := h
        rcases List.mem_cons.1 hb with rfl | hb'
        · obtain ⟨c, hc⟩ := ParseUint_not_validAmount _ hbv
          rw [hc] at hp; cases hp
        · exact ⟨b, hb', hbd, hbv⟩
    · rw [if_neg hd]
      apply ih
      obtain ⟨b, hb, hbd, hbv⟩ := h
      rcases List.mem_cons.1 hb with rfl | hb'
      · exact absurd hbd hd
      · exact ⟨b, hb', hbd, hbv⟩

theorem totalStakeLoop_filter (accounts : List StakeAccount) (total : Nat) :
    totalStakeLoop accounts total =
      totalStakeLoop (accounts.filter (fun a => decide (a.parsedType = "delegated"))) total := by
  induction accounts generalizing total with
  | nil => rfl
  | cons a rest ih =>
    by_cases hd : a.parsedType = "delegated"
    · rw [List.filter_cons_of_pos (by simpa using hd), totalStakeLoop, totalStakeLoop, if_pos hd,
        if_pos hd]
      cases ParseUint a.delegationStake with
      | error c => rfl
      | ok v => exact ih _
    · rw [List.filter_cons_of_neg (by simpa using hd), totalStakeLoop, if_neg hd]
      exact ih _

theorem decode_recordJson (a : StakeAccount) :
    decodeStruct elementField ⟨"", ""⟩ (recordJson a) = some a := by
  have h1 : selects "account" "account" = true := by decide
  have h2 : selects "account" "pubkey" = false := by decide
  have h3 : selects "data" "data" = true := by decide
  have h4 : selects "parsed" "parsed" = true := by decide
  have h5 : selects "parsed" "program" = false := by decide
  have h6 : selects "type" "info" = false := by decide
  have h7 : selects "info" "info" = true := by decide
  have h8 : selects "type" "type" = true := by decide
  have h9 : selects "stake" "stake" = true := by decide
  have h10 : selects "delegation" "delegation" = true := by decide
  simp [recordJson, decodeStruct, decodeMembers, elementField, accountField, dataField,
    parsedField, infoField, stakeField, delegationField, decodeString, h1, h2, h3, h4, h5, h6,
    h7, h8, h9, h10]

theorem unmarshal_payloadOf (accounts : List StakeAccount) :
    unmarshalStakeAccounts (payloadOf accounts) = some accounts := by
  simp only [payloadOf, unmarshalStakeAccounts]
  induction accounts with
  | nil => rfl
  | cons a rest ih => simp only [List.map_cons, decodeElements, decode_recordJson, ih]

theorem validAmount_iff_ParseUint (s : String) :
    validAmount s = true ↔ ∃ v, ParseUint s = .ok v := by
  constructor
  · intro h
    exact ⟨_, ParseUint_validAmount s h⟩
  · rintro ⟨v, hv⟩
    cases hva : validAmount s with
    | true => rfl
    | false =>
      obtain ⟨c, hc⟩ := ParseUint_not_validAmount s hva
      rw [hc] at hv
      cases hv

theorem validAmount_of_isDecimal_false (s : String) (h : isDecimal s = false) :
    validAmount s = false := by
  simp [validAmount, h]

theorem totalStakeLoop_remove (pre post : List StakeAccount) (a : StakeAccount) (total : Nat)
    (ha : a.parsedType ≠ "delegated") :
    totalStakeLoop (pre ++ a :: post) total = totalStakeLoop (pre ++ post) total := by
  rw [totalStakeLoop_filter (pre ++ a :: post), totalStakeLoop_filter (pre ++ post),
    List.filter_append, List.filter_append, List.filter_cons_of_neg (by simpa using ha)]

theorem totalStakeLoop_ok_iff (accounts : List StakeAccount) (total : Nat) (ht : total < 2 ^ 64) :
    (∃ v, totalStakeLoop accounts total = .ok v) ↔
      ∀ a ∈ accounts, a.parsedType = "delegated" → validAmount a.delegationStake = true := by
  constructor
  · rintro ⟨v, hv⟩ a ha hd
    cases hva : validAmount a.delegationStake with
    | true => rfl
    | false =>
      obtain ⟨s, c, hc⟩ := totalStakeLoop_invalid accounts total ⟨a, ha, hd, hva⟩
      rw [hc] at hv
      cases hv
  · intro h
    exact ⟨_, totalStakeLoop_valid accounts total ht h⟩

theorem getSolanaAccountInfo_success (net : Net) (address : String) (body1 body2 : Body)
    (result1 result2 : RawMessage) (data : AccountData) (staked : F64)
    (h1 : net.respond net.solanaRPCURL (accountInfoRequest address) = .response 200 body1)
    (hr1 : unmarshalResponse body1 = some result1)
    (hd : unmarshalAccountData result1 = some data)
    (h2 : net.respond net.solanaRPCURL (programAccountsRequest address) = .response 200 body2)
    (hr2 : unmarshalResponse body2 = some result2)
    (hs : calculateTotalStake result2 = .ok staked) :
    (getSolanaAccountInfo net address).1 =
      .ok { Balance := F64.div data.Lamports F64.e9, StakedBalance := staked } := by
  simp only [accountInfoRequest, programAccountsRequest] at h1 h2
  simp [getSolanaAccountInfo, sendRPCRequest, getSolanaRPCURL, accountInfoParams,
    programAccountsParams, h1, h2, hr1, hr2, hd, hs]

theorem sendRPCRequest_status (net : Net) (method : String) (params : List Json)
    (status : Int) (body : Body)
    (h : net.respond net.solanaRPCURL
      { JsonRPC := "2.0", ID := 1, Method := method, Params := params } =
        .response status body)
    (hs : status ≠ 200) :
    (sendRPCRequest net method params).1 = .error (.httpStatus status body) := by
  simp [sendRPCRequest, getSolanaRPCURL, h, hs]

theorem sendRPCRequest_eq (net : Net) (method : String) (params : List Json) :
    sendRPCRequest net method params =
      (replyOf (net.respond net.solanaRPCURL
          { JsonRPC := "2.0", ID := 1, Method := method, Params := params }),
        { net with issued := (net.issued ++ issuedFor (net.respond net.solanaRPCURL
            { JsonRPC := "2.0", ID := 1, Method := method, Params := params })
            { JsonRPC := "2.0", ID := 1, Method := method, Params := params }) }) := by
  unfold sendRPCRequest getSolanaRPCURL
  cases h : net.respond net.solanaRPCURL
      { JsonRPC := "2.0", ID := 1, Method := method, Params := params } with
  | creationFailed => simp [replyOf, issuedFor, h]
  | doFailed => simp [replyOf, issuedFor, h]
  | readFailed => simp [replyOf, issuedFor, h]
  | response status body =>
    by_cases hs : status = 200
    · subst hs
      cases hu : unmarshalResponse body <;> simp [replyOf, issuedFor, hu, h]
    · simp [replyOf, issuedFor, hs, h]

theorem getSolanaAccountInfo_eq (net : Net) (address : String) :
    getSolanaAccountInfo net address =
      (resultOf (replyOf (net.respond net.solanaRPCURL (accountInfoRequest address)))
          (replyOf (net.respond net.solanaRPCURL (programAccountsRequest address))),
        { net with issued := (net.issued ++
            issuedFor (net.respond net.solanaRPCURL (accountInfoRequest address))
              (accountInfoRequest address) ++
            (if reachesSecond (replyOf (net.respond net.solanaRPCURL
                (accountInfoRequest address))) then
              issuedFor (net.respond net.solanaRPCURL (programAccountsRequest address))
                (programAccountsRequest address)
             else [])) }) := by
  unfold getSolanaAccountInfo
  rw [sendRPCRequest_eq]
  simp only [accountInfoRequest, programAccountsRequest, accountInfoParams,
    programAccountsParams]
  cases h1 : replyOf (net.respond net.solanaRPCURL
      { JsonRPC := "2.0", ID := 1, Method := "getAccountInfo",
        Params := [.str address, .obj [("encoding", .str "jsonParsed")]] }) with
  | error e => simp [resultOf, reachesSecond]
  | ok accountInfo =>
    cases hd : unmarshalAccountData accountInfo with
    | none => simp [resultOf, reachesSecond, hd]
    | some accountData =>
      simp only [resultOf, reachesSecond, hd, Option.isSome_some, if_true]
      rw [sendRPCRequest_eq]
      simp only
      cases h2 : replyOf (net.respond net.solanaRPCURL
          { JsonRPC := "2.0", ID := 1, Method := "getProgramAccounts",
            Params := [.str "Stake11111111111111111111111111111111111111",
              .obj [("encoding", .str "jsonParsed"),
                ("filters", .arr [.obj [("memcmp",
                  .obj [("bytes", .str address), ("offset", .num false 12 0)])]])]] }) with
      | error e => simp
      | ok stakeAccounts =>
        cases hs : calculateTotalStake stakeAccounts <;> simp [hs]

theorem decodeMembers_append {α : Type} (field : α → String → Json → Option α) (cur : α)
    (pre post : List (String × Json)) :
    decodeMembers field cur (pre ++ post) =
      (decodeMembers field cur pre).bind (fun mid => decodeMembers field mid post) := by
  induction pre generalizing cur with
  | nil => rfl
  | cons kv rest ih =>
    obtain ⟨key, v⟩ := kv
    simp only [List.cons_append, decodeMembers]
    cases field cur key v with
    | none => rfl
    | some next => exact ih next

theorem decodeMembers_unchanged {α : Type} (field : α → String → Json → Option α) (cur : α)
    (members : List (String × Json))
    (h : ∀ kv ∈ members, field cur kv.1 kv.2 = some cur) :
    decodeMembers field cur members = some cur := by
  induction members with
  | nil => rfl
  | cons kv rest ih =>
    obtain ⟨key, v⟩ := kv
    have h1 := h (key, v) (List.mem_cons_self _ _)
    simp only at h1
    simp only [decodeMembers, h1]
    exact ih (fun kv hkv => h kv (List.mem_cons_of_mem _ hkv))

theorem decodeMembers_none {α : Type} (field : α → String → Json → Option α) (cur : α)
    (members : List (String × Json)) (key : String) (v : Json)
    (hmem : (key, v) ∈ members) (h : ∀ c, field c key v = none) :
    decodeMembers field cur members = none := by
  induction members generalizing cur with
  | nil => cases hmem
  | cons kv rest ih =>
    obtain ⟨k, w⟩ := kv
    simp only [decodeMembers]
    cases hf : field cur k w with
    | none => rfl
    | some next =>
      simp only
      rcases List.mem_cons.1 hmem with heq | hrest
      · cases heq
        rw [h cur] at hf
        cases hf
      · exact ih next hrest

theorem unmarshalResponse_without_result (members : List (String × Json))
    (h : ∀ kv ∈ members, selects "result" kv.1 = false) :
    unmarshalResponse (.json (.obj members)) = some none := by
  simp only [unmarshalResponse, decodeStruct]
  apply decodeMembers_unchanged
  intro kv hkv
  simp [responseField, h kv hkv]

theorem unmarshalResponse_error_member (pre post : List (String × Json)) (v : Json) :
    unmarshalResponse (.json (.obj (pre ++ ("error", v) :: post))) =
      unmarshalResponse (.json (.obj (pre ++ post))) := by
  have hsel : selects "result" "error" = false := by decide
  simp only [unmarshalResponse, decodeStruct, decodeMembers_append]
  cases decodeMembers responseField none pre with
  | none => rfl
  | some mid => simp [decodeMembers, responseField, hsel]

theorem resultOf_nil_second (first : Except Err RawMessage) :
    ∃ e, resultOf first (.ok none) = .error e := by
  cases first with
  | error e => exact ⟨e, rfl⟩
  | ok accountInfo =>
    cases hd : unmarshalAccountData accountInfo with
    | none => exact ⟨.accountInfoParsing, by simp [resultOf, hd]⟩
    | some d =>
      exact ⟨.stakeAccountsParsing, by
        simp [resultOf, hd, calculateTotalStake, totalStakeBaseUnits, unmarshalStakeAccounts]⟩

theorem unmarshalAccountData_ill_typed (ms1 ms2 : List (String × Json)) (k1 k2 : String)
    (v : Json) (h1 : (k1, Json.obj ms2) ∈ ms1) (hk1 : selects "value" k1 = true)
    (h2 : (k2, v) ∈ ms2) (hk2 : selects "lamports" k2 = true)
    (hv : notNumberOrNull v = true) :
    unmarshalAccountData (some (.obj ms1)) = none := by
  simp only [unmarshalAccountData, decodeStruct]
  apply decodeMembers_none accountDataField _ ms1 k1 (.obj ms2) h1
  intro c
  simp only [accountDataField, hk1, if_true, decodeStruct]
  apply decodeMembers_none valueField _ ms2 k2 v h2
  intro c2
  simp only [valueField, hk2, if_true]
  cases v <;> simp_all [notNumberOrNull, decodeFloat64]

theorem unmarshalAccountData_missing (ms1 : List (String × Json))
    (h : ∀ kv ∈ ms1, selects "value" kv.1 = true →
      kv.2 = .null ∨ ∃ ms2, kv.2 = .obj ms2 ∧
        ∀ kv2 ∈ ms2, selects "lamports" kv2.1 = true → kv2.2 = .null) :
    unmarshalAccountData (some (.obj ms1)) = some ⟨F64.zero⟩ := by
  simp only [unmarshalAccountData, decodeStruct]
  apply decodeMembers_unchanged
  intro kv hkv
  simp only [accountDataField]
  by_cases hsel : selects "value" kv.1 = true
  · rw [if_pos hsel]
    rcases h kv hkv hsel with hnull | ⟨ms2, hobj, hms2⟩
    · rw [hnull]; rfl
    · rw [hobj]
      simp only [decodeStruct]
      apply decodeMembers_unchanged
      intro kv2 hkv2
      simp only [valueField]
      by_cases hsel2 : selects "lamports" kv2.1 = true
      · rw [if_pos hsel2, hms2 kv2 hkv2 hsel2]; rfl
      · rw [if_neg hsel2]
  · rw [if_neg hsel]

theorem reachesSecond_iff (first : Except Err RawMessage) :
    reachesSecond first = true ↔
      ∃ accountInfo accountData, first = .ok accountInfo ∧
        unmarshalAccountData accountInfo = some accountData := by
  cases first with
  | error e => simp [reachesSecond]
  | ok accountInfo =>
    cases hd : unmarshalAccountData accountInfo with
    | none => simp [reachesSecond, hd]
    | some d => simp [reachesSecond, hd]

theorem resultOf_ok (first second : Except Err RawMessage) (info : AccountInfo)
    (h : resultOf first second = .ok info) :
    reachesSecond first = true ∧ ∃ stakeAccounts, second = .ok stakeAccounts := by
  cases first with
  | error e => simp [resultOf] at h
  | ok accountInfo =>
    cases hd : unmarshalAccountData accountInfo with
    | none => simp [resultOf, hd] at h
    | some d =>
      cases second with
      | error e => simp [resultOf, hd] at h
      | ok stakeAccounts => exact ⟨by simp [reachesSecond, hd], stakeAccounts, rfl⟩

theorem issuedFor_cases (o : HttpOutcome) (request : RPCRequest) :
    (issuedFor o request = [] ∧ replyOf o = .error .requestCreation) ∨
      issuedFor o request = [request] := by
  cases o <;> simp [issuedFor, replyOf]

theorem utf8ByteSize_go_ascii (cs : List Char) (h : ∀ c ∈ cs, c.toNat < 128) :
    String.utf8ByteSize.go cs = cs.length := by
  induction cs with
  | nil => rfl
  | cons c rest ih =>
    have hc : c.toNat < 128 := h c (List.mem_cons_self _ _)
    have hsize : c.utf8Size = 1 := by
      have : c.val ≤ 127 := by
        show c.val.toNat ≤ 127
        simp only [Char.toNat] at hc
        omega
      simp [Char.utf8Size, this]
    simp only [String.utf8ByteSize.go, List.length_cons, hsize]
    rw [ih (fun d hd => h d (List.mem_cons_of_mem _ hd))]

theorem len_ascii (s : String) (h : ∀ c ∈ s.data, c.toNat < 128) : len s = s.length := by
  cases s with
  | mk cs => exact utf8ByteSize_go_ascii cs h

theorem accepts_iff (s : String) : accepts s = true ↔ (len s = 43 ∨ len s = 44) := by
  simp only [accepts, Bool.or_eq_true, beq_iff_eq]
  exact Or.comm

theorem getAddressFromUser_prompts (reads : List String) (out : List String) :
    ∃ more, (getAddressFromUser reads out).2 = out ++ promptText :: more := by
  induction reads generalizing out with
  | nil => exact ⟨[], rfl⟩
  | cons line rest ih =>
    simp only [getAddressFromUser]
    by_cases h : accepts (TrimSpace line) = true
    · rw [if_pos h]
      exact ⟨[], rfl⟩
    · rw [if_neg h]
      obtain ⟨more, hm⟩ := ih (out ++ [promptText, invalidText])
      exact ⟨invalidText :: promptText :: more, by rw [hm]; simp⟩

/-! ## The stake aggregator -/

/-- C1, as the claim states it, fails: for two delegated records with the
stakes "18446744073709551615" and "2" around an initialized record, the
total that `calculateTotalStake` accumulates is 1, while the sum of the
delegated amounts is `2^64 + 1`. -/
theorem totalStake_sum_counterexample :
    unmarshalStakeAccounts overflowPayload =
        some [⟨"delegated", "18446744073709551615"⟩, ⟨"initialized", ""⟩, ⟨"delegated", "2"⟩] ∧
      totalStakeBaseUnits overflowPayload = .ok 1 ∧
      delegatedSum [⟨"delegated", "18446744073709551615"⟩, ⟨"initialized", ""⟩,
        ⟨"delegated", "2"⟩] = 2 ^ 64 + 1 :=
  ⟨by decide, rfl, by decide⟩

/-- C1, amended: for every list of stake-account records whose delegated
stake strings are amounts of at most `2^64 - 1`, the total that
`calculateTotalStake` accumulates in base units is the sum of the delegated
amounts modulo `2^64`, hence that sum whenever it is below `2^64`; and a
record with another type contributes 0 and never makes the call fail: with
or without it the loop has the same outcome. -/
theorem totalStake_delegated_sum :
    (∀ (raw : RawMessage) (accounts : List StakeAccount),
        unmarshalStakeAccounts raw = some accounts →
        (∀ a ∈ accounts, a.parsedType = "delegated" → validAmount a.delegationStake = true) →
        totalStakeBaseUnits raw = .ok (delegatedSum accounts % 2 ^ 64) ∧
        (delegatedSum accounts < 2 ^ 64 →
          totalStakeBaseUnits raw = .ok (delegatedSum accounts))) ∧
    (∀ (pre post : List StakeAccount) (a : StakeAccount) (total : Nat),
        a.parsedType ≠ "delegated" →
        totalStakeLoop (pre ++ a :: post) total = totalStakeLoop (pre ++ post) total) := by
  refine ⟨?_, totalStakeLoop_remove⟩
  intro raw accounts hraw hvalid
  have h := totalStakeLoop_valid accounts 0 (by norm_num) hvalid
  rw [Nat.zero_add] at h
  refine ⟨?_, ?_⟩
  · simp only [totalStakeBaseUnits, hraw, h]
  · intro hlt
    simp only [totalStakeBaseUnits, hraw, h, Nat.mod_eq_of_lt hlt]

/-- The witness of C1: one delegated record with stake "300000000" plus one
initialized record gives 300000000. -/
theorem totalStake_delegated_sum_witness :
    totalStakeBaseUnits scenario4Payload = .ok 300000000 ∧
      totalStakeLoop ([⟨"delegated", "300000000"⟩] ++ ⟨"initialized", ""⟩ :: []) 0 =
        totalStakeLoop ([⟨"delegated", "300000000"⟩] ++ []) 0 :=
  ⟨((totalStake_delegated_sum.1 scenario4Payload
        [⟨"delegated", "300000000"⟩, ⟨"initialized", ""⟩] (by decide) (by decide)).2
      (by decide)),
    totalStake_delegated_sum.2 [⟨"delegated", "300000000"⟩] [] ⟨"initialized", ""⟩ 0
      (by decide)⟩

/-- C3: for every list of stake-account records that contains a record of
type "delegated" whose stake string is not a non-empty sequence of decimal
digits, `calculateTotalStake` fails with the error of the stake value,
wherever that record stands; it returns no sum. -/
theorem calculateTotalStake_malformed_fails (raw : RawMessage) (accounts : List StakeAccount)
    (hraw : unmarshalStakeAccounts raw = some accounts)
    (hbad : ∃ a ∈ accounts, a.parsedType = "delegated" ∧ isDecimal a.delegationStake = false) :
    (∃ s c, calculateTotalStake raw = .error (.stakeValue s c)) ∧
      ∀ v, calculateTotalStake raw ≠ .ok v := by
  obtain ⟨a, ha, hd, hdec⟩ := hbad
  obtain ⟨s, c, hc⟩ := totalStakeLoop_invalid accounts 0
    ⟨a, ha, hd, validAmount_of_isDecimal_false _ hdec⟩
  have h : calculateTotalStake raw = .error (.stakeValue s c) := by
    simp only [calculateTotalStake, totalStakeBaseUnits, hraw, hc]
  refine ⟨⟨s, c, h⟩, ?_⟩
  intro v hv
  rw [h] at hv
  cases hv

/-- The witness of C3: the stake "12a" between two valid delegated records. -/
theorem calculateTotalStake_malformed_fails_witness :
    (∃ s c, calculateTotalStake malformedPayload = .error (.stakeValue s c)) ∧
      ∀ v, calculateTotalStake malformedPayload ≠ .ok v :=
  calculateTotalStake_malformed_fails malformedPayload
    [⟨"delegated", "5"⟩, ⟨"delegated", "12a"⟩, ⟨"delegated", "7"⟩] (by decide)
    ⟨⟨"delegated", "12a"⟩, by decide, by decide, by decide⟩

/-- C9: for every list of stake-account records whose delegated stake
strings all parse, the total that `calculateTotalStake` accumulates is the
sum of the delegated amounts modulo `2^64`, and the call succeeds, reporting
no overflow; for the two delegated records with the stakes
"18446744073709551615" and "1" the total is 0 although the sum is `2^64`. -/
theorem totalStake_wraps :
    (∀ (raw : RawMessage) (accounts : List StakeAccount),
        unmarshalStakeAccounts raw = some accounts →
        (∀ a ∈ accounts, a.parsedType = "delegated" →
          ∃ v, ParseUint a.delegationStake = .ok v) →
        totalStakeBaseUnits raw = .ok (delegatedSum accounts % 2 ^ 64) ∧
        calculateTotalStake raw =
          .ok (F64.div (F64.ofUInt64 (delegatedSum accounts % 2 ^ 64)) F64.e9)) ∧
    (unmarshalStakeAccounts wrapPayload =
        some [⟨"delegated", "18446744073709551615"⟩, ⟨"delegated", "1"⟩] ∧
      totalStakeBaseUnits wrapPayload = .ok 0 ∧
      delegatedSum [⟨"delegated", "18446744073709551615"⟩, ⟨"delegated", "1"⟩] = 2 ^ 64) := by
  refine ⟨?_, by decide, rfl, by decide⟩
  intro raw accounts hraw hparse
  have hvalid : ∀ a ∈ accounts, a.parsedType = "delegated" →
      validAmount a.delegationStake = true :=
    fun a ha hd => (validAmount_iff_ParseUint _).2 (hparse a ha hd)
  have h := totalStakeLoop_valid accounts 0 (by norm_num) hvalid
  rw [Nat.zero_add] at h
  have hb : totalStakeBaseUnits raw = .ok (delegatedSum accounts % 2 ^ 64) := by
    simp only [totalStakeBaseUnits, hraw, h]
  exact ⟨hb, by simp only [calculateTotalStake, hb]⟩

/-- The witness of C9: the payload of the claim, whose total is 0 and whose
staked balance is `+0`. -/
theorem totalStake_wraps_witness :
    totalStakeBaseUnits wrapPayload =
        .ok (delegatedSum [⟨"delegated", "18446744073709551615"⟩, ⟨"delegated", "1"⟩] % 2 ^ 64) ∧
      calculateTotalStake wrapPayload =
        .ok (F64.div (F64.ofUInt64
          (delegatedSum [⟨"delegated", "18446744073709551615"⟩, ⟨"delegated", "1"⟩] % 2 ^ 64))
          F64.e9) :=
  totalStake_wraps.1 wrapPayload
    [⟨"delegated", "18446744073709551615"⟩, ⟨"delegated", "1"⟩] (by decide)
    (fun a _ _ => (validAmount_iff_ParseUint a.delegationStake).1
      (by
        have h : ∀ b ∈ [(⟨"delegated", "18446744073709551615"⟩ : StakeAccount),
            ⟨"delegated", "1"⟩], validAmount b.delegationStake = true := by decide
        exact h a ‹_›))

/-- C10: for every payload that decodes as a list of stake-account records,
`calculateTotalStake` succeeds if and only if the stake string of every
record whose type is exactly "delegated" is a non-empty sequence of ASCII
decimal digits denoting at most `2^64 - 1`.  So a delegated record fails
the call when it has no stake member (the empty string), a sign, white
space, an underscore, or a value of `2^64`, while leading zeros are
accepted. -/
theorem calculateTotalStake_succeeds_iff :
    (∀ (raw : RawMessage) (accounts : List StakeAccount),
        unmarshalStakeAccounts raw = some accounts →
        ((∃ v, calculateTotalStake raw = .ok v) ↔
          ∀ a ∈ accounts, a.parsedType = "delegated" →
            validAmount a.delegationStake = true)) ∧
    calculateTotalStake (some (.arr [delegatedWithoutStake])) =
      .error (.stakeValue "" .invalid) ∧
    calculateTotalStake (payloadOf [⟨"delegated", "+5"⟩]) = .error (.stakeValue "+5" .invalid) ∧
    calculateTotalStake (payloadOf [⟨"delegated", "-5"⟩]) = .error (.stakeValue "-5" .invalid) ∧
    calculateTotalStake (payloadOf [⟨"delegated", " 5"⟩]) = .error (.stakeValue " 5" .invalid) ∧
    calculateTotalStake (payloadOf [⟨"delegated", "5_0"⟩]) =
      .error (.stakeValue "5_0" .invalid) ∧
    calculateTotalStake (payloadOf [⟨"delegated", "18446744073709551616"⟩]) =
      .error (.stakeValue "18446744073709551616" .outOfRange) ∧
    calculateTotalStake (payloadOf [⟨"delegated", "007"⟩]) =
      .ok (F64.div (F64.ofUInt64 7) F64.e9) := by
  refine ⟨?_, rfl, rfl, rfl, rfl, rfl, rfl, rfl⟩
  intro raw accounts hraw
  rw [← totalStakeLoop_ok_iff accounts 0 (by norm_num)]
  simp only [calculateTotalStake, totalStakeBaseUnits, hraw]
  constructor
  · rintro ⟨v, hv⟩
    cases hl : totalStakeLoop accounts 0 with
    | error e => rw [hl] at hv; cases hv
    | ok t => exact ⟨t, rfl⟩
  · rintro ⟨t, ht⟩
    rw [ht]
    exact ⟨_, rfl⟩

/-- The witness of C10: a delegated record with stake "007" and a record of
another type whose stake string is no number. -/
theorem calculateTotalStake_succeeds_iff_witness :
    (∃ v, calculateTotalStake (payloadOf [⟨"delegated", "007"⟩, ⟨"inactive", "x"⟩]) = .ok v) ↔
      ∀ a ∈ [(⟨"delegated", "007"⟩ : StakeAccount), ⟨"inactive", "x"⟩],
        a.parsedType = "delegated" → validAmount a.delegationStake = true :=
  calculateTotalStake_succeeds_iff.1 (payloadOf [⟨"delegated", "007"⟩, ⟨"inactive", "x"⟩])
    [⟨"delegated", "007"⟩, ⟨"inactive", "x"⟩] (unmarshal_payloadOf _)

/-! ## The resolver and the transport -/

/-- C2, as the claim states it, fails: with `lamports` 1000000000 and the two
delegated stakes "18446744073709551615" and "1", which sum to `T = 2^64`,
`getSolanaAccountInfo` returns the staked balance `+0`, while `T / 10^9`
is the `float64` `4835703278458517 * 2^-18` (about 1.8e10). -/
theorem getSolanaAccountInfo_sum_counterexample :
    (getSolanaAccountInfo wrapNet "TestAddress123").1 =
        .ok { Balance := F64.one, StakedBalance := F64.zero } ∧
      delegatedSum [⟨"delegated", "18446744073709551615"⟩, ⟨"delegated", "1"⟩] = 2 ^ 64 ∧
      F64.div (F64.round false (2 ^ 64) 1) F64.e9 = F64.fin false 4835703278458517 (-18) ∧
      F64.fin false 4835703278458517 (-18) ≠ F64.zero :=
  ⟨rfl, by decide, by decide, by decide⟩


/-- C2, amended: for every pair of HTTP-200 responses in which the
`getAccountInfo` result decodes to `value.lamports = L` and the
`getProgramAccounts` result decodes to a list whose delegated stakes are
amounts of at most `2^64 - 1` summing to `T`, `getSolanaAccountInfo` succeeds
with `Balance = L / 1e9` and `StakedBalance = float64(T mod 2^64) / 1e9`,
which is `float64(T) / 1e9` when `T < 2^64`; and the result is the same for
two states of the network that answer the two requests alike. -/
theorem getSolanaAccountInfo_balances :
    (∀ (net : Net) (address : String) (body1 body2 : Body) (result1 result2 : RawMessage)
        (L : F64) (accounts : List StakeAccount),
        net.respond net.solanaRPCURL (accountInfoRequest address) = .response 200 body1 →
        unmarshalResponse body1 = some result1 →
        unmarshalAccountData result1 = some ⟨L⟩ →
        net.respond net.solanaRPCURL (programAccountsRequest address) = .response 200 body2 →
        unmarshalResponse body2 = some result2 →
        unmarshalStakeAccounts result2 = some accounts →
        (∀ a ∈ accounts, a.parsedType = "delegated" → validAmount a.delegationStake = true) →
        (getSolanaAccountInfo net address).1 =
            .ok { Balance := F64.div L F64.e9,
                  StakedBalance :=
                    F64.div (F64.ofUInt64 (delegatedSum accounts % 2 ^ 64)) F64.e9 } ∧
          (delegatedSum accounts < 2 ^ 64 →
            (getSolanaAccountInfo net address).1 =
              .ok { Balance := F64.div L F64.e9,
                    StakedBalance := F64.div (F64.ofUInt64 (delegatedSum accounts)) F64.e9 })) ∧
    (∀ (net other : Net) (address : String),
        net.respond net.solanaRPCURL (accountInfoRequest address) =
          other.respond other.solanaRPCURL (accountInfoRequest address) →
        net.respond net.solanaRPCURL (programAccountsRequest address) =
          other.respond other.solanaRPCURL (programAccountsRequest address) →
        (getSolanaAccountInfo net address).1 = (getSolanaAccountInfo other address).1) := by
  constructor
  · intro net address body1 body2 result1 result2 L accounts h1 hr1 hd h2 hr2 hu hvalid
    have hloop := totalStakeLoop_valid accounts 0 (by norm_num) hvalid
    rw [Nat.zero_add] at hloop
    have hs : calculateTotalStake result2 =
        .ok (F64.div (F64.ofUInt64 (delegatedSum accounts % 2 ^ 64)) F64.e9) := by
      simp only [calculateTotalStake, totalStakeBaseUnits, hu, hloop]
    have h := getSolanaAccountInfo_success net address body1 body2 result1 result2 ⟨L⟩ _
      h1 hr1 hd h2 hr2 hs
    refine ⟨h, ?_⟩
    intro hlt
    rw [h, Nat.mod_eq_of_lt hlt]
  · intro net other address h1 h2
    rw [getSolanaAccountInfo_eq, getSolanaAccountInfo_eq, h1, h2]

/-- The witness of C2, the test of the repository: `lamports` 1000000000 and
one delegated record with stake "500000000" give the balance 1.0 and the
staked balance 0.5. -/
theorem getSolanaAccountInfo_balances_witness :
    (getSolanaAccountInfo testNet "TestAddress123").1 =
        .ok { Balance := F64.one, StakedBalance := F64.half } ∧
      (getSolanaAccountInfo testNet "TestAddress123").1 =
        (getSolanaAccountInfo { testNet with issued := [accountInfoRequest "x"] }
          "TestAddress123").1 :=
  ⟨(getSolanaAccountInfo_balances.1 testNet "TestAddress123"
      (envelope (accountResult (.num false 1000000000 0))) (envelope (.arr [testRecord]))
      (some (accountResult (.num false 1000000000 0))) (some (.arr [testRecord]))
      F64.e9 [⟨"delegated", "500000000"⟩] rfl rfl rfl rfl rfl rfl (by decide)).2 (by decide),
    getSolanaAccountInfo_balances.2 testNet { testNet with issued := [accountInfoRequest "x"] }
      "TestAddress123" rfl rfl⟩

/-- C4: for every HTTP response whose status code is not 200,
`sendRPCRequest` returns the error that carries the status code and the
body, and no payload; and when either of the two calls that
`getSolanaAccountInfo` makes receives such a response,
`getSolanaAccountInfo` returns that error and no balances. -/
theorem non200_status_fails :
    (∀ (net : Net) (method : String) (params : List Json) (status : Int) (body : Body),
        net.respond net.solanaRPCURL
            { JsonRPC := "2.0", ID := 1, Method := method, Params := params } =
          .response status body →
        status ≠ 200 →
        (sendRPCRequest net method params).1 = .error (.httpStatus status body)) ∧
    (∀ (net : Net) (address : String) (status : Int) (body : Body),
        net.respond net.solanaRPCURL (accountInfoRequest address) = .response status body →
        status ≠ 200 →
        (getSolanaAccountInfo net address).1 = .error (.httpStatus status body)) ∧
    (∀ (net : Net) (address : String) (status : Int) (body : Body)
        (accountInfo : RawMessage) (accountData : AccountData),
        (sendRPCRequest net "getAccountInfo" (accountInfoParams address)).1 = .ok accountInfo →
        unmarshalAccountData accountInfo = some accountData →
        net.respond net.solanaRPCURL (programAccountsRequest address) = .response status body →
        status ≠ 200 →
        (getSolanaAccountInfo net address).1 = .error (.httpStatus status body)) := by
  refine ⟨sendRPCRequest_status, ?_, ?_⟩
  · intro net address status body h hs
    rw [getSolanaAccountInfo_eq, h]
    simp [resultOf, replyOf, hs]
  · intro net address status body accountInfo accountData h1 hd h2 hs
    rw [sendRPCRequest_eq] at h1
    simp only [accountInfoParams] at h1
    rw [getSolanaAccountInfo_eq, h2]
    simp only [accountInfoRequest]
    rw [h1]
    simp [resultOf, replyOf, hs, hd]

/-- The witness of C4: a status 500 on the first call, and on the second. -/
theorem non200_status_fails_witness :
    (sendRPCRequest firstFailsNet "getAccountInfo" (accountInfoParams "TestAddress123")).1 =
        .error (.httpStatus 500 (.malformed "Internal Server Error")) ∧
      (getSolanaAccountInfo firstFailsNet "TestAddress123").1 =
        .error (.httpStatus 500 (.malformed "Internal Server Error")) ∧
      (getSolanaAccountInfo secondFailsNet "TestAddress123").1 =
        .error (.httpStatus 500 (.malformed "Internal Server Error")) :=
  ⟨non200_status_fails.1 firstFailsNet "getAccountInfo" (accountInfoParams "TestAddress123")
      500 (.malformed "Internal Server Error") rfl (by decide),
    non200_status_fails.2.1 firstFailsNet "TestAddress123" 500
      (.malformed "Internal Server Error") rfl (by decide),
    non200_status_fails.2.2 secondFailsNet "TestAddress123" 500
      (.malformed "Internal Server Error") (some (accountResult (.num false 1000000000 0)))
      ⟨F64.e9⟩ rfl rfl rfl (by decide)⟩

/-- C5, as the claim states it, fails: when both HTTP-200 envelopes carry an
`error` member next to their `result`, `getSolanaAccountInfo` succeeds and
returns the balances 1.0 and 0.5. -/
theorem error_member_counterexample :
    (getSolanaAccountInfo errorMemberNet "TestAddress123").1 =
      .ok { Balance := F64.one, StakedBalance := F64.half } :=
  rfl

/-- C5, amended: an `error` member of the envelope is ignored, the envelope
decoding as it does without the member; and `getSolanaAccountInfo` returns an
error, and no balances, whenever at least one of its two HTTP-200 responses
is an envelope without a `result` member, as a JSON-RPC error response is. -/
theorem error_member_ignored :
    (∀ (pre post : List (String × Json)) (v : Json),
        unmarshalResponse (.json (.obj (pre ++ ("error", v) :: post))) =
          unmarshalResponse (.json (.obj (pre ++ post)))) ∧
    (∀ (net : Net) (address : String) (members : List (String × Json)),
        (net.respond net.solanaRPCURL (accountInfoRequest address) =
            .response 200 (.json (.obj members)) ∨
          net.respond net.solanaRPCURL (programAccountsRequest address) =
            .response 200 (.json (.obj members))) →
        (∀ kv ∈ members, selects "result" kv.1 = false) →
        ∃ e, (getSolanaAccountInfo net address).1 = .error e) := by
  refine ⟨unmarshalResponse_error_member, ?_⟩
  intro net address members hresp hno
  have hreply : replyOf (.response 200 (.json (.obj members))) = .ok none := by
    simp [replyOf, unmarshalResponse_without_result members hno]
  rw [getSolanaAccountInfo_eq]
  rcases hresp with h | h
  · rw [h, hreply]
    exact ⟨.accountInfoParsing, rfl⟩
  · rw [h, hreply]
    exact resultOf_nil_second _

/-- The witness of C5: an envelope with and without its `error` member, and
a JSON-RPC error response to the second request. -/
theorem error_member_ignored_witness :
    unmarshalResponse (.json (.obj ([("jsonrpc", .str "2.0")] ++
        ("error", .obj [("code", .num true 32602 0)]) :: [("result", .arr [])]))) =
      unmarshalResponse (.json (.obj ([("jsonrpc", .str "2.0")] ++ [("result", .arr [])]))) ∧
    ∃ e, (getSolanaAccountInfo errorResponseNet "TestAddress123").1 = .error e :=
  ⟨error_member_ignored.1 [("jsonrpc", .str "2.0")] [("result", .arr [])]
      (.obj [("code", .num true 32602 0)]),
    error_member_ignored.2 errorResponseNet "TestAddress123" errorEnvelope (Or.inr rfl)
      (by decide)⟩

/-- C6, as the claim states it, fails: for a `getAccountInfo` result whose
`value` is `null`, so that `value.lamports` is missing, `getSolanaAccountInfo`
succeeds and returns the balance 0. -/
theorem missing_lamports_counterexample :
    (getSolanaAccountInfo nullValueNet "TestAddress123").1 =
      .ok { Balance := F64.zero, StakedBalance := F64.zero } :=
  rfl

/-- C6, amended: for every `getAccountInfo` result payload in which
`value.lamports` is present and is a string, a boolean, an array or an
object, `getSolanaAccountInfo` fails with the error of the account info and
returns no balances; a payload in which `value.lamports` is missing or
`null` (a `value` that is `null` or absent included) decodes without error
to 0 lamports, and so does the payload `null`, which makes the balance
`0 / 1e9 = 0`. -/
theorem lamports_decoding :
    (∀ (net : Net) (address : String) (body : Body) (ms1 ms2 : List (String × Json))
        (k1 k2 : String) (v : Json),
        net.respond net.solanaRPCURL (accountInfoRequest address) = .response 200 body →
        unmarshalResponse body = some (some (.obj ms1)) →
        (k1, Json.obj ms2) ∈ ms1 → selects "value" k1 = true →
        (k2, v) ∈ ms2 → selects "lamports" k2 = true →
        notNumberOrNull v = true →
        (getSolanaAccountInfo net address).1 = .error .accountInfoParsing) ∧
    (∀ (ms1 : List (String × Json)),
        (∀ kv ∈ ms1, selects "value" kv.1 = true →
          kv.2 = .null ∨ ∃ ms2, kv.2 = .obj ms2 ∧
            ∀ kv2 ∈ ms2, selects "lamports" kv2.1 = true → kv2.2 = .null) →
        unmarshalAccountData (some (.obj ms1)) = some ⟨F64.zero⟩) ∧
    unmarshalAccountData (some .null) = some ⟨F64.zero⟩ ∧
    F64.div F64.zero F64.e9 = F64.zero := by
  refine ⟨?_, unmarshalAccountData_missing, rfl, by decide⟩
  intro net address body ms1 ms2 k1 k2 v hresp hbody h1 hk1 h2 hk2 hv
  have hd := unmarshalAccountData_ill_typed ms1 ms2 k1 k2 v h1 hk1 h2 hk2 hv
  rw [getSolanaAccountInfo_eq, hresp]
  simp [replyOf, hbody, resultOf, hd]

/-- The witness of C6: `lamports` given as the string "1000000000", and a
result without a `value` member. -/
theorem lamports_decoding_witness :
    (getSolanaAccountInfo stringLamportsNet "TestAddress123").1 = .error .accountInfoParsing ∧
      unmarshalAccountData (some (.obj [("context", .obj [("slot", .num false 1234 0)])])) =
        some ⟨F64.zero⟩ :=
  ⟨lamports_decoding.1 stringLamportsNet "TestAddress123"
      (envelope (accountResult (.str "1000000000")))
      [("context", .obj [("slot", .num false 1234 0)]),
       ("value", .obj [("data", .arr [.str "", .str "base64"]),
                       ("executable", .bool false),
                       ("lamports", .str "1000000000"),
                       ("owner", .str "11111111111111111111111111111111"),
                       ("rentEpoch", .num false 0 0)])]
      [("data", .arr [.str "", .str "base64"]),
       ("executable", .bool false),
       ("lamports", .str "1000000000"),
       ("owner", .str "11111111111111111111111111111111"),
       ("rentEpoch", .num false 0 0)]
      "value" "lamports" (.str "1000000000") rfl rfl
      (by simp) (by decide) (by simp) (by decide) rfl,
    lamports_decoding.2.1 [("context", .obj [("slot", .num false 1234 0)])]
      (by
        intro kv hkv hsel
        simp only [List.mem_singleton] at hkv
        subst hkv
        exact absurd hsel (by decide))⟩

/-- C7: for every address `a`, the requests that `getSolanaAccountInfo` hands
to the network are, in this order, "getAccountInfo" with the parameters
`[a, {encoding: "jsonParsed"}]` and "getProgramAccounts" with the parameters
`["Stake11111111111111111111111111111111111111", {encoding: "jsonParsed",
filters: [{memcmp: {offset: 12, bytes: a}}]}]`, each with `jsonrpc = "2.0"`
and the id 1; the second one is issued only when the first returned a
payload and that payload was decoded, and both are issued whenever the call
succeeds. -/
theorem requests_in_order (net : Net) (a : String) :
    ∃ newly : List RPCRequest,
      (getSolanaAccountInfo net a).2.issued = net.issued ++ newly ∧
      (newly = [] ∨
        newly = [{ JsonRPC := "2.0", ID := 1, Method := "getAccountInfo",
                   Params := [.str a, .obj [("encoding", .str "jsonParsed")]] }] ∨
        newly = [{ JsonRPC := "2.0", ID := 1, Method := "getAccountInfo",
                   Params := [.str a, .obj [("encoding", .str "jsonParsed")]] },
                 { JsonRPC := "2.0", ID := 1, Method := "getProgramAccounts",
                   Params := [.str "Stake11111111111111111111111111111111111111",
                     .obj [("encoding", .str "jsonParsed"),
                           ("filters", .arr [.obj [("memcmp",
                             .obj [("bytes", .str a), ("offset", .num false 12 0)])]])]] }]) ∧
      (2 ≤ newly.length →
        ∃ accountInfo accountData,
          (sendRPCRequest net "getAccountInfo"
            [.str a, .obj [("encoding", .str "jsonParsed")]]).1 = .ok accountInfo ∧
          unmarshalAccountData accountInfo = some accountData) ∧
      (∀ info, (getSolanaAccountInfo net a).1 = .ok info → newly.length = 2) := by
  refine ⟨issuedFor (net.respond net.solanaRPCURL (accountInfoRequest a)) (accountInfoRequest a) ++
      (if reachesSecond (replyOf (net.respond net.solanaRPCURL (accountInfoRequest a))) then
        issuedFor (net.respond net.solanaRPCURL (programAccountsRequest a))
          (programAccountsRequest a)
       else []), ?_, ?_, ?_, ?_⟩
  · rw [getSolanaAccountInfo_eq]
    simp only [List.append_assoc]
  · rcases issuedFor_cases (net.respond net.solanaRPCURL (accountInfoRequest a))
        (accountInfoRequest a) with ⟨h1, hr⟩ | h1
    · left
      rw [h1, hr]
      simp [reachesSecond]
    · right
      rw [h1]
      by_cases hreach : reachesSecond
          (replyOf (net.respond net.solanaRPCURL (accountInfoRequest a))) = true
      · rw [if_pos hreach]
        rcases issuedFor_cases (net.respond net.solanaRPCURL (programAccountsRequest a))
            (programAccountsRequest a) with ⟨h2, _⟩ | h2
        · left
          rw [h2]
          rfl
        · right
          rw [h2]
          rfl
      · rw [if_neg hreach]
        left
        rfl
  · intro hlen
    have hreach : reachesSecond
        (replyOf (net.respond net.solanaRPCURL (accountInfoRequest a))) = true := by
      by_contra hcon
      rw [if_neg hcon] at hlen
      rcases issuedFor_cases (net.respond net.solanaRPCURL (accountInfoRequest a))
          (accountInfoRequest a) with ⟨h1, _⟩ | h1
      · rw [h1] at hlen
        simp at hlen
      · rw [h1] at hlen
        simp at hlen
    obtain ⟨accountInfo, accountData, hok, hd⟩ := (reachesSecond_iff _).1 hreach
    refine ⟨accountInfo, accountData, ?_, hd⟩
    rw [sendRPCRequest_eq]
    exact hok
  · intro info hinfo
    rw [getSolanaAccountInfo_eq] at hinfo
    obtain ⟨hreach, stakeAccounts, hsecond⟩ := resultOf_ok _ _ info hinfo
    obtain ⟨accountInfo, accountData, hok, _⟩ := (reachesSecond_iff _).1 hreach
    rw [if_pos hreach]
    rcases issuedFor_cases (net.respond net.solanaRPCURL (accountInfoRequest a))
        (accountInfoRequest a) with ⟨_, hr⟩ | h1
    · rw [hr] at hok
      cases hok
    · rcases issuedFor_cases (net.respond net.solanaRPCURL (programAccountsRequest a))
          (programAccountsRequest a) with ⟨_, hr2⟩ | h2
      · rw [hr2] at hsecond
        cases hsecond
      · rw [h1, h2]
        rfl

/-- The witness of C7: in the test of the repository the two requests are
issued, in this order. -/
theorem requests_in_order_witness :
    (getSolanaAccountInfo testNet "TestAddress123").2.issued =
      [accountInfoRequest "TestAddress123", programAccountsRequest "TestAddress123"] := by
  obtain ⟨newly, hissued, hshape, _, hlen⟩ := requests_in_order testNet "TestAddress123"
  have h2 := hlen ⟨F64.one, F64.half⟩ rfl
  rcases hshape with h | h | h
  · rw [h] at h2
    cases h2
  · rw [h] at h2
    cases h2
  · rw [hissued, h]
    rfl

/-! ## The address prompt -/

/-- C8, as the claim states it, fails: a line of 22 characters whose UTF-8
encoding has 44 bytes is accepted and returned, and a line of 43 characters
whose encoding has 45 bytes is rejected. -/
theorem address_length_counterexample :
    (TrimSpace "  éééééééééééééééééééééé\n").length = 22 ∧
      getAddressFromUser ["  éééééééééééééééééééééé\n"] [] =
        (some "éééééééééééééééééééééé", [promptText]) ∧
      (TrimSpace "aaaaaaaaaaaaaaaaaaaaaaaaaaaaaaaaaaaaaaaaaa€\n").length = 43 ∧
      accepts (TrimSpace "aaaaaaaaaaaaaaaaaaaaaaaaaaaaaaaaaaaaaaaaaa€\n") = false := by
  decide

/-- C8, amended: for every input line, `getAddressFromUser` accepts the line
trimmed of surrounding white space, and returns it, if and only if the
length in bytes of its UTF-8 encoding is 43 or 44, which for a line of
ASCII characters is its length in characters; every other line is rejected,
the message about the length is printed and the prompt is printed again. -/
theorem address_accepted_iff (line : String) (rest out : List String) :
    (accepts (TrimSpace line) = true ↔
      ((TrimSpace line).utf8ByteSize = 43 ∨ (TrimSpace line).utf8ByteSize = 44)) ∧
    ((∀ c ∈ (TrimSpace line).data, c.toNat < 128) →
      (accepts (TrimSpace line) = true ↔
        ((TrimSpace line).length = 43 ∨ (TrimSpace line).length = 44))) ∧
    (accepts (TrimSpace line) = true →
      getAddressFromUser (line :: rest) out = (some (TrimSpace line), out ++ [promptText])) ∧
    (accepts (TrimSpace line) = false →
      getAddressFromUser (line :: rest) out =
          getAddressFromUser rest (out ++ [promptText, invalidText]) ∧
        ∃ more, (getAddressFromUser (line :: rest) out).2 =
          out ++ [promptText, invalidText, promptText] ++ more) := by
  refine ⟨accepts_iff _, ?_, ?_, ?_⟩
  · intro hascii
    rw [accepts_iff, len_ascii _ hascii]
  · intro h
    simp only [getAddressFromUser, h, if_true]
  · intro h
    have hstep : getAddressFromUser (line :: rest) out =
        getAddressFromUser rest (out ++ [promptText, invalidText]) := by
      simp only [getAddressFromUser, h, Bool.false_eq_true, if_false]
    refine ⟨hstep, ?_⟩
    obtain ⟨more, hm⟩ := getAddressFromUser_prompts rest (out ++ [promptText, invalidText])
    exact ⟨more, by rw [hstep, hm]; simp⟩

/-- The witness of C8: a line that is too short, then an address of 43
ASCII characters between blanks. -/
theorem address_accepted_iff_witness :
    getAddressFromUser ["  Stake11111111111111111111111111111111111111 \r\n"]
        [promptText, invalidText] =
      (some (TrimSpace "  Stake11111111111111111111111111111111111111 \r\n"),
        [promptText, invalidText] ++ [promptText]) ∧
    getAddressFromUser ["abc\n", "  Stake11111111111111111111111111111111111111 \r\n"] [] =
      getAddressFromUser ["  Stake11111111111111111111111111111111111111 \r\n"]
        ([] ++ [promptText, invalidText]) :=
  ⟨(address_accepted_iff "  Stake11111111111111111111111111111111111111 \r\n" []
      [promptText, invalidText]).2.2.1 (by decide),
    ((address_accepted_iff "abc\n" ["  Stake11111111111111111111111111111111111111 \r\n"]
      []).2.2.2 (by decide)).1⟩

end SolanaBalance
